import Mathlib

/-!
Shallow embedding of the indexed-tgirt-seq read-clustering pipeline
(sources: `readClusterPairs.py`, `double_index_cluster.py`, `read_cluster_hdf.py`).

Sequences and quality lines are modelled as `List Char`; Python `ord` is
`Char.toNat`.  Exact rational arithmetic (`ℚ`) stands in for numpy floats in
the plurality-vote stack; the Bayesian stack of `read_cluster_hdf.py`
(powers `10^(-q/10)` and `log10`) is modelled over `ℝ`.
-/

namespace TGIRT

abbrev DNA := List Char

/-- Python `int(x)` truncation toward zero on an exact rational. -/
def pyTrunc (x : ℚ) : ℤ :=
  if 0 ≤ x then ⌊x⌋ else -⌊-x⌋

/-- Mean of a list of naturals as an exact rational (`np.mean`); numpy's
`nan` on the empty list is represented by `0` (never hit by the theorems,
which keep the lists nonempty). -/
def meanQ (l : List ℕ) : ℚ :=
  (l.sum : ℚ) / (l.length : ℚ)

/-! ### `seqRecord` (readClusterPairs.py lines 24-45) -/

structure SeqRecord where
  seqListRight : List DNA
  qualListRight : List DNA
  seqListLeft : List DNA
  qualListLeft : List DNA
deriving DecidableEq, Repr

def SeqRecord.empty : SeqRecord := ⟨[], [], [], []⟩

/-- `seqRecord.addRecord`: appends one entry to each of the four lists. -/
def SeqRecord.addRecord (r : SeqRecord) (seqRight qualRight seqLeft qualLeft : DNA) :
    SeqRecord :=
  ⟨r.seqListRight ++ [seqRight], r.qualListRight ++ [qualRight],
   r.seqListLeft ++ [seqLeft], r.qualListLeft ++ [qualLeft]⟩

/-- `seqRecord.readCounts`: asserts equal pair counts (`AssertionError` is the
`Except.error` case), then returns the member count. -/
def SeqRecord.readCounts (r : SeqRecord) : Except String ℕ :=
  if r.seqListLeft.length = r.seqListRight.length then .ok r.seqListRight.length
  else .error "Not equal pairs"

/-! ### Plurality-vote consensus (readClusterPairs.py lines 88-145) -/

/-- Insert a char into a sorted list keeping it sorted (ascending). -/
def insortChar (c : Char) : List Char → List Char
  | [] => [c]
  | x :: xs => if c ≤ x then c :: x :: xs else x :: insortChar c xs

/-- Sort chars ascending; `np.unique` returns its unique values sorted. -/
def sortChars (l : List Char) : List Char := l.foldr insortChar []

/-- The sorted list of distinct bases of a column (`np.unique(columnBases)`). -/
def uniqueBases (l : List Char) : List Char := sortChars l.dedup

/-- `np.amax(baseCount)`: the largest per-base count in the column
(0 for the empty column, where numpy would raise instead). -/
def maxCount (l : List Char) : ℕ :=
  (l.dedup.map (fun b => l.count b)).foldr max 0

/-- `uniqueBases[baseCount == maxCount][0]`: the smallest base (numpy sorts)
among those attaining the maximal count. -/
def npMode (l : List Char) : Char :=
  (((uniqueBases l).filter (fun b => l.count b = maxCount l)).headD '?')

/-- The (base, ord-of-quality-char) column extracted at `pos`
(readClusterPairs.py lines 96-100; `zip` truncates like Python's). -/
def columnAt (seqList qualList : List DNA) (pos : ℕ) : List (Char × ℕ) :=
  (seqList.zip qualList).map (fun p => (p.1.getD pos '?', (p.2.getD pos '?').toNat))

/-- `calculateConcensusBase` (plurality model, readClusterPairs.py lines
88-106): call the first max-count base when its fraction strictly exceeds
`voteCutOff`, else `'N'`; quality is the mean of the `ord` values of members
agreeing with the called symbol when it occurs in the column, else 33. -/
def calculateConcensusBase (seqList qualList : List DNA) (pos : ℕ)
    (voteCutOff : ℚ) : Char × ℚ :=
  let col := columnAt seqList qualList pos
  let bases := col.map Prod.fst
  let base :=
    if (maxCount bases : ℚ) / (bases.length : ℚ) > voteCutOff then npMode bases
    else 'N'
  let agree := (col.filter (fun p => p.1 = base)).map Prod.snd
  let quality : ℚ := if base ∈ bases then meanQ agree else 33
  (base, quality)

/-- `concensusSeq` (readClusterPairs.py lines 108-117): per-position calls;
`chr(int(q))` truncates each mean quality to an integer code. -/
def concensusSeq (seqList qualList : List DNA) (positions : List ℕ)
    (voteCutOff : ℚ) : DNA × List ℤ :=
  let calls := positions.map (fun pos => calculateConcensusBase seqList qualList pos voteCutOff)
  (calls.map Prod.fst, calls.map (fun c => pyTrunc c.2))

/-- `np.unique(lengths)[0]`: numpy sorts the unique values, so element 0 is
the minimum (numpy raises on the empty array; we return 0 there). -/
def npUniqueHead : List ℕ → ℕ
  | [] => 0
  | x :: xs => xs.foldl min x

/-- `concensusPairs` (readClusterPairs.py lines 120-137): consensus over
positions `range(np.unique(lengths)[0])` for each side, plus the supporting
read counts.  The source's asserts compare the output sequence and quality
lengths, which are equal by construction here. -/
def concensusPairs (r : SeqRecord) (voteCutOff : ℚ) :
    (DNA × List ℤ × ℕ) × (DNA × List ℤ × ℕ) :=
  let posL := List.range (npUniqueHead (r.seqListLeft.map List.length))
  let left := concensusSeq r.seqListLeft r.qualListLeft posL voteCutOff
  let posR := List.range (npUniqueHead (r.seqListRight.map List.length))
  let right := concensusSeq r.seqListRight r.qualListRight posR voteCutOff
  ((left.1, left.2, r.seqListLeft.length), (right.1, right.2, r.seqListRight.length))

/-! ### Barcode gates -/

/-- A FASTQ record as yielded by `FastqGeneralIterator`. -/
structure Fastq where
  rid : DNA
  seq : DNA
  qual : DNA
deriving DecidableEq, Repr

/-- Python `id.split(' ')[0]`: the identifier up to the first space. -/
def firstToken (s : DNA) : DNA := s.takeWhile (fun c => c ≠ ' ')

/-- `int(np.mean([ord(q) for q in qual]) - 33)`: exact mean of the char
codes, minus 33, truncated toward zero.  Computed exactly over the integers:
`mean - 33 = (sum - 33*len)/len`, and Python's `int()` truncation toward
zero on that exact ratio is `Int.tdiv`.  (`np.mean` of the empty list is
`nan`; theorems keep the barcode nonempty.) -/
def barcodeQualMean (qual : DNA) : ℤ :=
  Int.tdiv ((qual.map Char.toNat).sum - 33 * qual.length) qual.length

/-- The homopolymer patterns of `readClusterPairs.py` line 187 (4-mers). -/
def homopolymerPats4 : List DNA :=
  ["AAAA".toList, "CCCC".toList, "TTTT".toList, "GGGG".toList]

/-- The homopolymer patterns of `double_index_cluster.py` line 104 and
`read_cluster_hdf.py` line 215 (5-mers). -/
def homopolymerPats5 : List DNA :=
  ["AAAAA".toList, "CCCCC".toList, "TTTTT".toList, "GGGGG".toList]

/-- `any(pattern in barcode for pattern in [...])` over the 4-mer patterns. -/
def hasHomopolymer4 (s : DNA) : Bool :=
  homopolymerPats4.any (fun p => decide (p <:+: s))

/-- `any(pattern in index for pattern in [...])` over the 5-mer patterns. -/
def hasHomopolymer5 (s : DNA) : Bool :=
  homopolymerPats5.any (fun p => decide (p <:+: s))

/-- The payload stored by `readClusterPairs.readClustering` line 191, in
`addRecord` argument order: the left quality is stored untrimmed. -/
structure StoredPair where
  seqRight : DNA
  qualRight : DNA
  seqLeft : DNA
  qualLeft : DNA
deriving DecidableEq, Repr

/-- `readClusterPairs.readClustering` (lines 175-192): id assertion, then the
gate; on acceptance the left sequence is trimmed by `idxBase` but the left
quality string is stored whole. -/
def readClusteringPairs (read1 read2 : Fastq) (idxBase : ℕ) (barcodeCutOff : ℤ)
    (retainedN : Bool) : Except String (Option (DNA × StoredPair)) :=
  if firstToken read1.rid = firstToken read2.rid then
    let barcode := read1.seq.take idxBase
    let barcodeQualmean := barcodeQualMean (read1.qual.take idxBase)
    if ('N' ∉ barcode ∧ barcodeQualmean > barcodeCutOff)
        ∧ ¬ hasHomopolymer4 barcode
        ∧ ((retainedN = false ∧ 'N' ∉ read1.seq ∧ 'N' ∉ read2.seq) ∨ retainedN = true) then
      .ok (some (barcode, ⟨read2.seq, read2.qual, read1.seq.drop idxBase, read1.qual⟩))
    else
      .ok none
  else .error "Wrongly splitted files!!"

/-- The payload stored by `double_index_cluster.readClustering` lines 107-111:
both sides trimmed (sequence and quality alike) by barcode+constant length. -/
structure StoredPairD where
  seqRight : DNA
  qualRight : DNA
  seqLeft : DNA
  qualLeft : DNA
deriving DecidableEq, Repr

/-- `double_index_cluster.readClustering` (lines 85-113), parameterized over
the `hammingDistance` function that lives in the missing `cluster_reads`
module: the gate result is independent of it whenever the homopolymer (or an
earlier) conjunct already fails, because Python's `and` short-circuits. -/
def readClusteringDouble (ham : DNA → DNA → ℚ) (read1 read2 : Fastq)
    (idxBase : ℕ) (barcodeCutOff : ℤ) (constantLeft constantRight : DNA)
    (hamLeftThr hamRightThr : ℚ) (usableLeft usableRight : ℕ) :
    Except String (Option (DNA × StoredPairD)) :=
  if firstToken read1.rid = firstToken read2.rid then
    let barcodeLeft := read1.seq.take idxBase
    let barcodeRight := read2.seq.take idxBase
    let constantLeftRegion := (read1.seq.drop idxBase).take (usableLeft - idxBase)
    let constantRightRegion := (read2.seq.drop idxBase).take (usableRight - idxBase)
    let qualMeanLeft := barcodeQualMean (read1.qual.take idxBase)
    let qualMeanRight := barcodeQualMean (read2.qual.take idxBase)
    let index := barcodeLeft ++ '/' :: barcodeRight
    if 'N' ∉ index
        ∧ min qualMeanRight qualMeanLeft > barcodeCutOff
        ∧ ¬ hasHomopolymer5 index
        ∧ ham constantRightRegion constantRight ≤ hamRightThr
        ∧ ham constantLeftRegion constantLeft ≤ hamLeftThr then
      .ok (some (index,
        ⟨read2.seq.drop usableRight, read2.qual.drop usableRight,
         read1.seq.drop usableLeft, read1.qual.drop usableLeft⟩))
    else
      .ok none
  else .error "Wrongly splitted files!!"

/-- Python `float(1)/n`: raises `ZeroDivisionError` when `n = 0`. -/
def pyDivOne (n : ℕ) : Except Unit ℚ :=
  if n = 0 then .error () else .ok (1 / (n : ℚ))

/-- The hamming-threshold setup of `double_index_cluster.clustering` lines
133-136: `1/len(constant)` for each side, computed before any read is
gated. -/
def clusteringSetupDouble (constantLeft constantRight : DNA) :
    Except Unit (ℚ × ℚ) := do
  let hl ← pyDivOne constantLeft.length
  let hr ← pyDivOne constantRight.length
  .ok (hl, hr)

/-- `scipy.spatial.distance.hamming(list(u), list(v))`: the fraction of
mismatching positions; raises (`Except.error`) when the lengths differ. -/
def pyHamming (u v : DNA) : Except Unit ℚ :=
  if u.length = v.length then
    .ok (((u.zip v).countP (fun p => p.1 ≠ p.2) : ℚ) / (u.length : ℚ))
  else .error ()

/-- The accept decision of `read_cluster_hdf.readClustering` (lines 203-217).
When `constant` is empty the source binds `constant_region = 0` (an `int`),
and `hammingDistance` then evaluates `list(0)`, a `TypeError`: that is the
`Except.error` case reached whenever the first three conjuncts pass.  The
conjuncts short-circuit in source order. -/
def readClusteringHdfAccept (read1 : Fastq) (idxBase : ℕ) (barcodeCutOff : ℤ)
    (constant : DNA) (n : ℕ) : Except Unit Bool :=
  let barcode := read1.seq.take idxBase
  let constantRegion : Option DNA :=
    if constant.length > 0 then some ((read1.seq.drop idxBase).take constant.length)
    else none
  let barcodeQualmean := barcodeQualMean (read1.qual.take idxBase)
  let pre := barcode.take n
  if 'N' ∈ barcode then .ok false
  else if ¬ barcodeQualmean > barcodeCutOff then .ok false
  else if hasHomopolymer5 barcode then .ok false
  else
    match constantRegion with
    | none => .error ()
    | some region => do
        let d ← pyHamming constant region
        if d < 3 / 10 then
          if 'N' ∈ pre then .ok false else .ok true
        else .ok false

/-! ### Accumulation over paired streams (readClusterPairs.py lines 226-231) -/

/-- The in-memory cluster store: an association list mimicking the Python
dict keyed by barcode. -/
abbrev BDict := List (DNA × SeqRecord)

def dictFind (d : BDict) (k : DNA) : Option SeqRecord :=
  (d.find? (fun p => p.1 = k)).map Prod.snd

/-- `barcodeDict.setdefault(barcode, seqRecord()); barcodeDict[barcode].addRecord(...)`. -/
def dictAdd (d : BDict) (k : DNA) (s : StoredPair) : BDict :=
  match dictFind d k with
  | some _ =>
      d.map (fun p =>
        if p.1 = k then (p.1, p.2.addRecord s.seqRight s.qualRight s.seqLeft s.qualLeft)
        else p)
  | none => d ++ [(k, SeqRecord.empty.addRecord s.seqRight s.qualRight s.seqLeft s.qualLeft)]

/-- One accumulation step: gate the pair, insert on acceptance. -/
def clusterStep (idxBase : ℕ) (barcodeCutOff : ℤ) (retainN : Bool) (d : BDict)
    (pr : Fastq × Fastq) : Except String BDict :=
  match readClusteringPairs pr.1 pr.2 idxBase barcodeCutOff retainN with
  | .error e => .error e
  | .ok none => .ok d
  | .ok (some (bc, stored)) => .ok (dictAdd d bc stored)

/-- The accumulation loop of `clusteringAndJoinFiles` (line 230):
`zip(FastqGeneralIterator(fq1), FastqGeneralIterator(fq2))` truncates to the
shorter stream, and the id assertion inside `readClustering` aborts at the
first mismatching pair. -/
def accumulatePairs (s1 s2 : List Fastq) (idxBase : ℕ) (barcodeCutOff : ℤ)
    (retainN : Bool) : Except String BDict :=
  (s1.zip s2).foldlM (clusterStep idxBase barcodeCutOff retainN) []

/-! ### Cluster processing (readClusterPairs.py lines 147-173,
double_index_cluster.py lines 66-82, read_cluster_hdf.py lines 250-260) -/

/-- One accepted consensus output record.  The source formats these into
FASTQ text with a shared counter; the fields below are the data carried by
that text (the counter is concurrency plumbing, not modelled). -/
structure OutRecord where
  index : DNA
  supportedLeft : ℕ
  seqLeft : DNA
  qualLeft : List ℤ
  supportedRight : ℕ
  seqRight : DNA
  qualRight : List ℤ
deriving DecidableEq, Repr

/-- `set(sequenceLeft) != {'N'}` is false exactly on a nonempty all-`'N'`
sequence. -/
def allN (s : DNA) : Bool := !s.isEmpty && s.all (fun c => c = 'N')

/-- The consensus record assembled from `concensusPairs` output. -/
def mkOutRecord (index : DNA) (r : SeqRecord) (voteCutOff : ℚ) : OutRecord :=
  let c := concensusPairs r voteCutOff
  ⟨index, c.1.2.2, c.1.1, c.1.2.1, c.2.2.2, c.2.1, c.2.2.1⟩

/-- `readClusterPairs.errorFreeReads` (lines 147-173): skip unless
`readCounts() > minReadCount` (the member-count check precedes the consensus
computation), then compute the consensus pair and append one record when the
N-retention condition passes.  `readCounts` can raise its equal-pairs
assertion, hence the `Except`. -/
def errorFreeReads (readCluster : Option SeqRecord) (index : DNA)
    (minReadCount : ℕ) (retainN : Bool) (voteCutOff : ℚ)
    (results : List OutRecord) : Except String (List OutRecord) :=
  match readCluster with
  | none => .ok results
  | some rc =>
    match rc.readCounts with
    | .error e => .error e
    | .ok n =>
      if n > minReadCount then
        let c := concensusPairs rc voteCutOff
        if (retainN = false ∧ 'N' ∉ c.2.1 ∧ 'N' ∉ c.1.1)
            ∨ (retainN = true ∧ allN c.1.1 = false) then
          .ok (results ++ [mkOutRecord index rc voteCutOff])
        else .ok results
      else .ok results

/-- `double_index_cluster.errorFreeReads` (lines 66-82), parameterized over
the consensus function imported from the missing `cluster_reads` module and
over the cluster's `member_count`.  When the guard fails, the trailing
`return leftRecord, rightRecord` reads names bound only inside the guard:
Python raises `UnboundLocalError`, the `Except.error` case. -/
def errorFreeReadsDouble (consensus : SeqRecord → (DNA × List ℤ) × (DNA × List ℤ))
    (readCluster : Option SeqRecord) (memberCount minReadCount : ℕ) :
    Except Unit ((DNA × List ℤ) × (DNA × List ℤ)) :=
  if readCluster.isSome ∧ memberCount > minReadCount then
    match readCluster with
    | some rc => .ok (consensus rc)
    | none => .error ()
  else .error ()

/-- The per-family size filter of `read_cluster_hdf.clustering` line 258:
`if family_size > minReadCount`. -/
def familyPasses (familySize minReadCount : ℕ) : Bool :=
  familySize > minReadCount

/-! ### Out-of-core row table (read_cluster_hdf.py lines 220-228) -/

/-- One row of the HDF table: (seqLeft, seqRight, qualLeft, qualRight).
`none` models the all-empty rows a fresh dataset holds (the empty-first-column
sentinel excluded before voting). -/
abbrev HRow := Option (DNA × DNA × DNA × DNA)

/-- The per-barcode dataset: created with `shape=(30,4)` and never resized
(the source calls no `resize` despite `maxshape=(100,4)`). -/
structure HTable where
  rows : List HRow
deriving DecidableEq, Repr

def HTable.fresh : HTable := ⟨List.replicate 30 none⟩

/-- `table[i,:] = row`: h5py raises when the index is outside the dataset's
current shape, which is the `Except.error` case. -/
def HTable.writeRow (t : HTable) (i : ℕ) (row : DNA × DNA × DNA × DNA) :
    Except Unit HTable :=
  if i < t.rows.length then .ok ⟨t.rows.set i (some row)⟩ else .error ()

/-- The per-barcode insertion of `read_cluster_hdf.readClustering` lines
220-227: write at index `barcode_count[barcode]`, then increment the count. -/
def hdfInsert (st : HTable × ℕ) (row : DNA × DNA × DNA × DNA) :
    Except Unit (HTable × ℕ) := do
  let t ← st.1.writeRow st.2 row
  .ok (t, st.2 + 1)

/-- Accumulate a list of accepted members for one barcode into its table. -/
def hdfInsertAll (rows : List (DNA × DNA × DNA × DNA)) :
    Except Unit (HTable × ℕ) :=
  rows.foldlM hdfInsert (HTable.fresh, 0)

/-! ### Bayesian posterior consensus (read_cluster_hdf.py lines 64-117),
modelled over `ℝ` (the source computes in floating point). -/

/-- `qual2Prob` (lines 64-69): `10 ** (-q/10)`. -/
noncomputable def qual2Prob (q : ℕ) : ℝ := (10 : ℝ) ^ (-(q : ℝ) / 10)

/-- `calculatePosterior` (lines 71-80) on a (base, quality) column:
`hit` is the product of `1 - p` over matching members — but `0` when no
member matches; the whole value is `1` when no member mismatches. -/
noncomputable def calculatePosterior (guessBase : Char) (col : List (Char × ℕ)) : ℝ :=
  let qualHit := (col.filter (fun p => p.1 = guessBase)).map Prod.snd
  let qualMissed := (col.filter (fun p => p.1 ≠ guessBase)).map Prod.snd
  if qualMissed.length > 0 then
    ((qualMissed.map (fun q => qual2Prob q / 3)).prod) *
      (if qualHit.length > 0 then (qualHit.map (fun q => 1 - qual2Prob q)).prod else 0)
  else 1

/-- The likelihood formula as the claim words it: product over matching
members of `1 - error_prob` times product over mismatching members of
`error_prob / 3`, with genuine empty products. -/
noncomputable def specLikelihood (guessBase : Char) (col : List (Char × ℕ)) : ℝ :=
  ((col.filter (fun p => p.1 = guessBase)).map (fun p => 1 - qual2Prob p.2)).prod *
    ((col.filter (fun p => p.1 ≠ guessBase)).map (fun p => qual2Prob p.2 / 3)).prod

/-- The likelihood as amended to match the source: the claim's product
formula when some member matches and some member mismatches; `1` when no
member mismatches; `0` when no member matches but some mismatches. -/
noncomputable def amendedLikelihood (guessBase : Char) (col : List (Char × ℕ)) : ℝ :=
  if col.filter (fun p => p.1 ≠ guessBase) = [] then 1
  else if col.filter (fun p => p.1 = guessBase) = [] then 0
  else specLikelihood guessBase col

/-- `acceptable_bases` (line 91), in source order. -/
def acceptableBases : List Char := ['A', 'C', 'T', 'G']

/-- The largest element of a list of reals (0 for the empty list). -/
noncomputable def listMaxR : List ℝ → ℝ
  | [] => 0
  | x :: xs => max x (listMaxR xs)

/-- `np.argmax`: index of the first occurrence of the maximum. -/
noncomputable def argmaxIdx : List ℝ → ℕ
  | [] => 0
  | x :: xs => if x < listMaxR xs then argmaxIdx xs + 1 else 0

/-- The hdf quality range bounds (`minQ`, `maxQ`, lines 22-23). -/
def minQhdf : ℤ := 33

def maxQhdf : ℤ := 73

/-- The (base, quality-33) column extracted at `pos`
(read_cluster_hdf.py lines 94-96); `zip` truncates like Python's. -/
def columnAtHdf (seqList qualList : List DNA) (pos : ℕ) : List (Char × ℕ) :=
  (seqList.zip qualList).map (fun p => (p.1.getD pos '?', (p.2.getD pos '?').toNat - 33))

/-- `read_cluster_hdf.calculateConcensusBase` (lines 82-103): posteriors for
the four bases via `calculatePosterior`, normalized by their sum; call the
argmax base; quality `-10*log10(1-posterior) + 33`, or `maxQ` when the
posterior reaches 1. -/
noncomputable def calculateConcensusBaseHdf (seqList qualList : List DNA)
    (pos : ℕ) : Char × ℝ :=
  let col := columnAtHdf seqList qualList pos
  let posteriors := acceptableBases.map (fun g => calculatePosterior g col)
  let s := posteriors.sum
  let normed := posteriors.map (fun x => x / s)
  let idx := argmaxIdx normed
  let b := acceptableBases.getD idx '?'
  let p := normed.getD idx 0
  (b, if p < 1 then -10 * Real.logb 10 (1 - p) + 33 else (maxQhdf : ℝ))

/-- The same column call written from the amended claim: likelihoods by the
amended formula, normalized, argmax call, same quality translation. -/
noncomputable def bayesCallSpec (seqList qualList : List DNA) (pos : ℕ) :
    Char × ℝ :=
  let col := columnAtHdf seqList qualList pos
  let posteriors := acceptableBases.map (fun g => amendedLikelihood g col)
  let s := posteriors.sum
  let normed := posteriors.map (fun x => x / s)
  let idx := argmaxIdx normed
  let b := acceptableBases.getD idx '?'
  let p := normed.getD idx 0
  (b, if p < 1 then -10 * Real.logb 10 (1 - p) + 33 else (maxQhdf : ℝ))

/-- Truncation toward zero of a real (`np.int64` conversion). -/
noncomputable def pyTruncR (x : ℝ) : ℤ :=
  if 0 ≤ x then ⌊x⌋ else -⌊-x⌋

/-- The clamp of `read_cluster_hdf.concensusSeq` lines 112-114. -/
def clampQ (q : ℤ) : ℤ :=
  if q < minQhdf then minQhdf else if maxQhdf < q then maxQhdf else q

/-- `read_cluster_hdf.concensusSeq` (lines 105-117): per-position calls;
qualities truncated to `int64`, clamped into `[minQ, maxQ]`, re-encoded. -/
noncomputable def concensusSeqHdf (seqList qualList : List DNA)
    (positions : List ℕ) : DNA × List ℤ :=
  let calls := positions.map (fun pos => calculateConcensusBaseHdf seqList qualList pos)
  (calls.map Prod.fst, calls.map (fun c => clampQ (pyTruncR c.2)))

/-! ### Output stage plumbing for the pairing claims -/

/-- The per-cluster output stage of `clusteringAndJoinFiles` (lines 236-252):
every accumulated cluster goes through `errorFreeReads` and the surviving
records are collected (worker-pool scheduling not modelled). -/
def outputOf (d : BDict) (minReadCount : ℕ) (retainN : Bool) (voteCutOff : ℚ) :
    Except String (List OutRecord) :=
  d.foldlM (fun res p => errorFreeReads (some p.2) p.1 minReadCount retainN voteCutOff res) []

/-- The whole `clusteringAndJoinFiles` pipeline: accumulate, then emit.
Output records exist only when accumulation succeeded. -/
def pipelinePairs (s1 s2 : List Fastq) (idxBase : ℕ) (barcodeCutOff : ℤ)
    (minReadCount : ℕ) (retainN : Bool) (voteCutOff : ℚ) :
    Except String (List OutRecord) := do
  let d ← accumulatePairs s1 s2 idxBase barcodeCutOff retainN
  outputOf d minReadCount retainN voteCutOff

/-- Building a `SeqRecord` by repeated insertion. -/
def buildSeqRecord (r0 : SeqRecord) (recs : List (DNA × DNA × DNA × DNA)) : SeqRecord :=
  recs.foldl (fun r q => r.addRecord q.1 q.2.1 q.2.2.1 q.2.2.2) r0

/-- Projects the stored left-side (sequence length, quality length) out of a
gate result. -/
def storedLeftLengths : Except String (Option (DNA × StoredPair)) → Option (ℕ × ℕ)
  | .ok (some p) => some (p.2.seqLeft.length, p.2.qualLeft.length)
  | _ => none

/-- Concrete two-member cluster whose left members have lengths 3 and 2. -/
def mismatchedCluster : SeqRecord :=
  ⟨["GG".toList, "GG".toList], ["JJ".toList, "JJ".toList],
   ["AAT".toList, "AA".toList], ["III".toList, "II".toList]⟩

/-! ### Helper lemmas about the plurality-vote machinery -/

theorem mem_insortChar {x c : Char} {l : List Char} :
    x ∈ insortChar c l ↔ x = c ∨ x ∈ l := by
  induction l with
  | nil => simp [insortChar]
  | cons y ys ih =>
      by_cases h : c ≤ y
      · simp [insortChar, h]
      · simp [insortChar, h, ih]
        tauto

theorem mem_sortChars {x : Char} {l : List Char} : x ∈ sortChars l ↔ x ∈ l := by
  induction l with
  | nil => simp [sortChars]
  | cons y ys ih =>
      simp only [sortChars, List.foldr_cons] at ih ⊢
      rw [mem_insortChar, ih, List.mem_cons]

theorem mem_uniqueBases {x : Char} {l : List Char} : x ∈ uniqueBases l ↔ x ∈ l := by
  rw [uniqueBases, mem_sortChars, List.mem_dedup]

theorem foldr_max_mem : ∀ (xs : List ℕ), xs ≠ [] → xs.foldr max 0 ∈ xs
  | [x], _ => by simp
  | x :: y :: ys, _ => by
      have h := foldr_max_mem (y :: ys) (by simp)
      simp only [List.foldr_cons] at h ⊢
      rcases Nat.le_total x (y ⊔ List.foldr max 0 ys) with hle | hle
      · rw [Nat.max_eq_right hle]; exact List.mem_cons_of_mem _ h
      · rw [Nat.max_eq_left hle]; exact List.mem_cons_self _ _

theorem le_foldr_max {a : ℕ} {xs : List ℕ} (h : a ∈ xs) : a ≤ xs.foldr max 0 := by
  induction xs with
  | nil => cases h
  | cons x l ih =>
      rcases List.mem_cons.1 h with rfl | hm
      · exact Nat.le_max_left _ _
      · exact (ih hm).trans (Nat.le_max_right _ _)

theorem count_le_maxCount (l : List Char) (c : Char) : l.count c ≤ maxCount l := by
  by_cases hc : c ∈ l
  · exact le_foldr_max (List.mem_map_of_mem _ (List.mem_dedup.2 hc))
  · simp [List.count_eq_zero_of_not_mem hc]

theorem maxCount_attained {l : List Char} (hne : l ≠ []) :
    ∃ b ∈ l, l.count b = maxCount l := by
  have hdne : l.dedup ≠ [] := by
    obtain ⟨x, xs, rfl⟩ := List.exists_cons_of_ne_nil hne
    exact List.ne_nil_of_mem (List.mem_dedup.2 (List.mem_cons_self x xs))
  have hm : (l.dedup.map (fun b => l.count b)).foldr max 0 ∈
      l.dedup.map (fun b => l.count b) :=
    foldr_max_mem _ (by simpa using hdne)
  obtain ⟨b, hb, hbc⟩ := List.mem_map.1 hm
  exact ⟨b, List.mem_dedup.1 hb, hbc⟩

theorem npMode_spec {l : List Char} (hne : l ≠ []) :
    npMode l ∈ l ∧ l.count (npMode l) = maxCount l := by
  obtain ⟨b, hbl, hbc⟩ := maxCount_attained hne
  have hbf : b ∈ (uniqueBases l).filter (fun b => l.count b = maxCount l) :=
    List.mem_filter.2 ⟨mem_uniqueBases.2 hbl, by simpa using hbc⟩
  obtain ⟨x, xs, hfe⟩ :=
    List.exists_cons_of_ne_nil (List.ne_nil_of_mem hbf)
  have hx : x ∈ (uniqueBases l).filter (fun b => l.count b = maxCount l) := by
    rw [hfe]; exact List.mem_cons_self x xs
  have hx' := List.mem_filter.1 hx
  have : npMode l = x := by rw [npMode, hfe]; rfl
  rw [this]
  exact ⟨mem_uniqueBases.1 hx'.1, by simpa using hx'.2⟩

theorem dedup_all_eq {l : List Char} {c : Char} (hne : l ≠ [])
    (hall : ∀ b ∈ l, b = c) : l.dedup = [c] := by
  have hcl : c ∈ l := by
    obtain ⟨x, xs, rfl⟩ := List.exists_cons_of_ne_nil hne
    have := hall x (List.mem_cons_self x xs)
    rw [← this]; exact List.mem_cons_self x xs
  have hcd : c ∈ l.dedup := List.mem_dedup.2 hcl
  obtain ⟨x, xs, hde⟩ := List.exists_cons_of_ne_nil (List.ne_nil_of_mem hcd)
  have hx : x = c := hall x (List.mem_dedup.1 (hde ▸ List.mem_cons_self x xs))
  have hnodup := List.nodup_dedup l
  rw [hde] at hnodup
  have hxs : xs = [] := by
    rw [List.eq_nil_iff_forall_not_mem]
    intro a ha
    have hal : a ∈ l.dedup := hde ▸ List.mem_cons_of_mem _ ha
    have : a = c := hall a (List.mem_dedup.1 hal)
    rw [this, ← hx] at ha
    exact (List.nodup_cons.1 hnodup).1 ha
  rw [hde, hx, hxs]

theorem npMode_all_agree {l : List Char} {c : Char} (hne : l ≠ [])
    (hall : ∀ b ∈ l, b = c) : npMode l = c := by
  have hu : uniqueBases l = [c] := by
    rw [uniqueBases, dedup_all_eq hne hall]; rfl
  have hcount : l.count c = maxCount l := by
    rw [maxCount, dedup_all_eq hne hall]; simp
  rw [npMode, hu]
  simp [hcount]

theorem maxCount_all_agree {l : List Char} {c : Char} (hne : l ≠ [])
    (hall : ∀ b ∈ l, b = c) : maxCount l = l.length := by
  have hcount : l.count c = maxCount l := by
    rw [maxCount, dedup_all_eq hne hall]; simp
  rw [← hcount, List.count_eq_length]
  intro b hb
  exact (hall b hb).symm

/-- The qualities of the members agreeing with symbol `b` in a column. -/
def agreeQuals (col : List (Char × ℕ)) (b : Char) : List ℕ :=
  (col.filter (fun p => p.1 = b)).map Prod.snd

theorem calculateConcensusBase_above (seqList qualList : List DNA) (pos : ℕ)
    (voteCutOff : ℚ) (hne : columnAt seqList qualList pos ≠ [])
    (hgt : (maxCount ((columnAt seqList qualList pos).map Prod.fst) : ℚ) /
      (((columnAt seqList qualList pos).map Prod.fst).length : ℚ) > voteCutOff) :
    calculateConcensusBase seqList qualList pos voteCutOff =
      (npMode ((columnAt seqList qualList pos).map Prod.fst),
       meanQ (agreeQuals (columnAt seqList qualList pos)
         (npMode ((columnAt seqList qualList pos).map Prod.fst)))) := by
  have hbne : (columnAt seqList qualList pos).map Prod.fst ≠ [] := by
    simpa [List.map_eq_nil_iff] using hne
  have hmem := (npMode_spec hbne).1
  simp only [calculateConcensusBase, agreeQuals]
  rw [if_pos hgt, if_pos hmem]

theorem calculateConcensusBase_below (seqList qualList : List DNA) (pos : ℕ)
    (voteCutOff : ℚ)
    (hle : ¬ ((maxCount ((columnAt seqList qualList pos).map Prod.fst) : ℚ) /
      (((columnAt seqList qualList pos).map Prod.fst).length : ℚ) > voteCutOff)) :
    calculateConcensusBase seqList qualList pos voteCutOff =
      ('N', if 'N' ∈ (columnAt seqList qualList pos).map Prod.fst
            then meanQ (agreeQuals (columnAt seqList qualList pos) 'N') else 33) := by
  simp only [calculateConcensusBase, agreeQuals]
  rw [if_neg hle]

theorem calculateConcensusBase_all_agree (seqList qualList : List DNA) (pos : ℕ)
    (voteCutOff : ℚ) (c : Char)
    (hne : columnAt seqList qualList pos ≠ [])
    (hall : ∀ p ∈ columnAt seqList qualList pos, p.1 = c)
    (hcut : voteCutOff < 1) :
    calculateConcensusBase seqList qualList pos voteCutOff =
      (c, meanQ ((columnAt seqList qualList pos).map Prod.snd)) := by
  have hbne : (columnAt seqList qualList pos).map Prod.fst ≠ [] := by
    simpa [List.map_eq_nil_iff] using hne
  have hallb : ∀ b ∈ (columnAt seqList qualList pos).map Prod.fst, b = c := by
    intro b hb
    obtain ⟨p, hp, rfl⟩ := List.mem_map.1 hb
    exact hall p hp
  have hlen : ((columnAt seqList qualList pos).map Prod.fst).length ≠ 0 :=
    fun h => hbne (List.length_eq_zero.1 h)
  have hmax := maxCount_all_agree hbne hallb
  have hfrac : (maxCount ((columnAt seqList qualList pos).map Prod.fst) : ℚ) /
      (((columnAt seqList qualList pos).map Prod.fst).length : ℚ) = 1 := by
    rw [hmax]
    exact div_self (by exact_mod_cast hlen)
  have h := calculateConcensusBase_above seqList qualList pos voteCutOff hne
    (by rw [hfrac]; exact hcut)
  rw [h, npMode_all_agree hbne hallb]
  congr 1
  rw [agreeQuals, List.filter_eq_self.2 ?_]
  intro p hp
  simpa using hall p hp

theorem buildSeqRecord_lengths (recs : List (DNA × DNA × DNA × DNA)) :
    ∀ r0 : SeqRecord,
      (buildSeqRecord r0 recs).seqListRight.length = r0.seqListRight.length + recs.length ∧
      (buildSeqRecord r0 recs).qualListRight.length = r0.qualListRight.length + recs.length ∧
      (buildSeqRecord r0 recs).seqListLeft.length = r0.seqListLeft.length + recs.length ∧
      (buildSeqRecord r0 recs).qualListLeft.length = r0.qualListLeft.length + recs.length := by
  induction recs with
  | nil => intro r0; simp [buildSeqRecord]
  | cons q recs ih =>
      intro r0
      have h := ih (r0.addRecord q.1 q.2.1 q.2.2.1 q.2.2.2)
      simp only [buildSeqRecord, List.foldl_cons] at h ⊢
      obtain ⟨h1, h2, h3, h4⟩ := h
      simp only [SeqRecord.addRecord, List.length_append, List.length_cons,
        List.length_nil] at h1 h2 h3 h4 ⊢
      omega

/-! ### Claim theorems -/

/-- C10: after any sequence of record insertions into the in-memory store,
the four member lists of a cluster all have length equal to the number of
inserted pairs, and the equal-pairs assertion inside the member-count
operation (`readCounts`) succeeds. -/
theorem C10_seqRecord_lists_in_lockstep (recs : List (DNA × DNA × DNA × DNA)) :
    (buildSeqRecord SeqRecord.empty recs).seqListRight.length = recs.length ∧
    (buildSeqRecord SeqRecord.empty recs).qualListRight.length = recs.length ∧
    (buildSeqRecord SeqRecord.empty recs).seqListLeft.length = recs.length ∧
    (buildSeqRecord SeqRecord.empty recs).qualListLeft.length = recs.length ∧
    (buildSeqRecord SeqRecord.empty recs).readCounts = .ok recs.length := by
  have h := buildSeqRecord_lengths recs SeqRecord.empty
  simp only [SeqRecord.empty, List.length_nil, Nat.zero_add] at h ⊢
  obtain ⟨h1, h2, h3, h4⟩ := h
  refine ⟨h1, h2, h3, h4, ?_⟩
  simp [SeqRecord.readCounts, h1, h3]

/-- C9: the out-of-core row table is created with 30 rows and never resized:
the first 30 inserts for a barcode succeed, but the 31st fails (h5py raises
on a write outside the dataset shape) instead of growing the capacity, and
the error propagates out of the accumulation loop, aborting the run. -/
theorem C9_fixed_capacity_31st_insert_fails :
    Except.isOk (hdfInsertAll (List.replicate 30
        ("A".toList, "C".toList, "I".toList, "I".toList))) = true ∧
    hdfInsertAll (List.replicate 31
        ("A".toList, "C".toList, "I".toList, "I".toList)) = .error () := by
  constructor <;> rfl

/-- C7: supplying an empty constant region does not skip the hamming check.
In the double-index variant the threshold `1/len(constant)` divides by zero
before any read is gated; in the out-of-core variant the gate evaluates
`list(0)` (a `TypeError`) on any read whose barcode passes the earlier
filters, instead of accepting it. -/
theorem C7_empty_constant_divides_by_zero :
    (∀ constantRight : DNA, clusteringSetupDouble [] constantRight = .error ()) ∧
    readClusteringHdfAccept
      ⟨"r1".toList, "ACGTACGTACGTA".toList, "IIIIIIIIIIIII".toList⟩
      13 30 [] 4 = .error () := by
  constructor
  · intro cr; rfl
  · rfl

/-- C3: in `readClusterPairs.readClustering` the accepted payload has the
barcode trimmed off the left sequence but not off the left quality string:
with `idxBase = 2` and a 4-base read, the stored left sequence has length 2
while its stored left quality string keeps length 4. -/
theorem C3_left_quality_stored_untrimmed :
    readClusteringPairs ⟨"r1".toList, "ACGT".toList, "IIII".toList⟩
        ⟨"r1".toList, "TTAA".toList, "JJJJ".toList⟩ 2 30 false
      = .ok (some ("AC".toList,
          ⟨"TTAA".toList, "JJJJ".toList, "GT".toList, "IIII".toList⟩)) ∧
    storedLeftLengths (readClusteringPairs ⟨"r1".toList, "ACGT".toList, "IIII".toList⟩
        ⟨"r1".toList, "TTAA".toList, "JJJJ".toList⟩ 2 30 false) = some (2, 4) := by
  constructor <;> rfl

/-- C6: a cluster whose left members have lengths 3 and 2 raises no error at
all: `concensusPairs` silently computes the consensus over
`range(np.unique(lengths)[0])`, i.e. the *smallest* member length, yielding a
2-column left consensus instead of a fatal precondition failure. -/
theorem C6_length_mismatch_silently_truncated :
    mismatchedCluster.seqListLeft.map List.length = [3, 2] ∧
    (concensusPairs mismatchedCluster (9/10)).1.1 = "AA".toList ∧
    (concensusPairs mismatchedCluster (9/10)).1.1.length = 2 := by
  have hcol0 : columnAt mismatchedCluster.seqListLeft mismatchedCluster.qualListLeft 0
      = [('A', 73), ('A', 73)] := by decide
  have hcol1 : columnAt mismatchedCluster.seqListLeft mismatchedCluster.qualListLeft 1
      = [('A', 73), ('A', 73)] := by decide
  have h0 : calculateConcensusBase mismatchedCluster.seqListLeft
      mismatchedCluster.qualListLeft 0 (9/10) = ('A', 73) := by
    rw [calculateConcensusBase_all_agree _ _ 0 (9/10) 'A'
      (by rw [hcol0]; decide) (by rw [hcol0]; decide) (by norm_num)]
    rw [hcol0]
    norm_num [meanQ]
  have h1 : calculateConcensusBase mismatchedCluster.seqListLeft
      mismatchedCluster.qualListLeft 1 (9/10) = ('A', 73) := by
    rw [calculateConcensusBase_all_agree _ _ 1 (9/10) 'A'
      (by rw [hcol1]; decide) (by rw [hcol1]; decide) (by norm_num)]
    rw [hcol1]
    norm_num [meanQ]
  have hseq : (concensusPairs mismatchedCluster (9/10)).1.1 = "AA".toList := by
    simp only [concensusPairs, concensusSeq]
    rw [show mismatchedCluster.seqListLeft.map List.length = [3, 2] from by decide]
    rw [show npUniqueHead [3, 2] = 2 from by decide]
    rw [show List.range 2 = [0, 1] from by decide]
    simp only [List.map_cons, List.map_nil, h0, h1]
    rfl
  exact ⟨by decide, hseq, by rw [hseq]; rfl⟩

/-- C5: the minimum-count comparison is strict in every variant: a cluster
with exactly `minReadCount` members is excluded — the member count is checked
before any consensus computation and the results list is returned unchanged —
while one with `minReadCount + 1` members reaches the consensus stage and
(under N-retention) appends exactly one record; the out-of-core family filter
and the double-index guard use the same strict comparison, the latter
producing no record for an excluded cluster (it raises `UnboundLocalError`). -/
theorem C5_strict_minimum_count (minReadCount : ℕ) :
    (∀ (rc : SeqRecord) (index : DNA) (retainN : Bool) (voteCutOff : ℚ)
        (results : List OutRecord),
      rc.readCounts = .ok minReadCount →
      errorFreeReads (some rc) index minReadCount retainN voteCutOff results
        = .ok results) ∧
    (∀ (rc : SeqRecord) (index : DNA) (voteCutOff : ℚ) (results : List OutRecord),
      rc.readCounts = .ok (minReadCount + 1) →
      allN (concensusPairs rc voteCutOff).1.1 = false →
      errorFreeReads (some rc) index minReadCount true voteCutOff results
        = .ok (results ++ [mkOutRecord index rc voteCutOff])) ∧
    (familyPasses minReadCount minReadCount = false ∧
      familyPasses (minReadCount + 1) minReadCount = true) ∧
    (∀ (consensus : SeqRecord → (DNA × List ℤ) × (DNA × List ℤ))
        (rc : Option SeqRecord),
      errorFreeReadsDouble consensus rc minReadCount minReadCount = .error ()) := by
  refine ⟨?_, ?_, ⟨?_, ?_⟩, ?_⟩
  · intro rc index retainN voteCutOff results h
    simp [errorFreeReads, h]
  · intro rc index voteCutOff results h hN
    simp [errorFreeReads, h, Nat.lt_succ_self, hN]
  · simp [familyPasses]
  · simp [familyPasses]
  · intro consensus rc
    simp [errorFreeReadsDouble]

/-- Witness for C5 at a concrete two-member cluster and `minReadCount = 2`:
the count equals the threshold exactly, so no record is produced. -/
theorem C5_strict_minimum_count_witness :
    (SeqRecord.mk ["GG".toList, "GG".toList] ["JJ".toList, "JJ".toList]
      ["AC".toList, "AC".toList] ["II".toList, "II".toList]).readCounts = .ok 2 ∧
    errorFreeReads (some (SeqRecord.mk ["GG".toList, "GG".toList]
        ["JJ".toList, "JJ".toList] ["AC".toList, "AC".toList]
        ["II".toList, "II".toList])) [] 2 false (9/10) [] = .ok [] :=
  ⟨rfl, (C5_strict_minimum_count 2).1
    (SeqRecord.mk ["GG".toList, "GG".toList] ["JJ".toList, "JJ".toList]
      ["AC".toList, "AC".toList] ["II".toList, "II".toList]) [] false (9/10) [] rfl⟩

theorem clusterStep_ok_of_token_eq (idxBase : ℕ) (cutoff : ℤ) (retainN : Bool)
    (d : BDict) (pr : Fastq × Fastq)
    (h : firstToken pr.1.rid = firstToken pr.2.rid) :
    ∃ d', clusterStep idxBase cutoff retainN d pr = .ok d' := by
  simp only [clusterStep, readClusteringPairs, if_pos h]
  split
  · next e heq => exact absurd heq (by split <;> simp)
  · exact ⟨_, rfl⟩
  · exact ⟨_, rfl⟩

theorem clusterStep_error_of_token_ne (idxBase : ℕ) (cutoff : ℤ) (retainN : Bool)
    (d : BDict) (pr : Fastq × Fastq)
    (h : firstToken pr.1.rid ≠ firstToken pr.2.rid) :
    clusterStep idxBase cutoff retainN d pr = .error "Wrongly splitted files!!" := by
  simp only [clusterStep, readClusteringPairs, if_neg h]

theorem clusterStep_eq_error_iff (idxBase : ℕ) (cutoff : ℤ) (retainN : Bool)
    (d : BDict) (pr : Fastq × Fastq) :
    Except.isOk (clusterStep idxBase cutoff retainN d pr) = false ↔
      firstToken pr.1.rid ≠ firstToken pr.2.rid := by
  by_cases h : firstToken pr.1.rid = firstToken pr.2.rid
  · obtain ⟨d', hd'⟩ := clusterStep_ok_of_token_eq idxBase cutoff retainN d pr h
    simp [hd', Except.isOk, Except.toBool, h]
  · rw [clusterStep_error_of_token_ne idxBase cutoff retainN d pr h]
    simp [Except.isOk, Except.toBool, h]

theorem foldlM_clusterStep_error_iff (idxBase : ℕ) (cutoff : ℤ) (retainN : Bool) :
    ∀ (l : List (Fastq × Fastq)) (d : BDict),
      Except.isOk (l.foldlM (clusterStep idxBase cutoff retainN) d) = false ↔
        ∃ pr ∈ l, firstToken pr.1.rid ≠ firstToken pr.2.rid := by
  intro l
  induction l with
  | nil => intro d; simp [List.foldlM, Except.isOk, Except.toBool, pure, Except.pure]
  | cons pr l ih =>
      intro d
      by_cases h : firstToken pr.1.rid = firstToken pr.2.rid
      · obtain ⟨d', hd'⟩ := clusterStep_ok_of_token_eq idxBase cutoff retainN d pr h
        have hstep : List.foldlM (clusterStep idxBase cutoff retainN) d (pr :: l)
            = List.foldlM (clusterStep idxBase cutoff retainN) d' l := by
          rw [List.foldlM_cons, hd']
          rfl
        rw [hstep, ih d']
        simp [h]
      · have hstep : List.foldlM (clusterStep idxBase cutoff retainN) d (pr :: l)
            = .error "Wrongly splitted files!!" := by
          rw [List.foldlM_cons, clusterStep_error_of_token_ne idxBase cutoff retainN d pr h]
          rfl
        rw [hstep]
        simp [Except.isOk, Except.toBool, h]

/-- C8 (amended): the accumulation over the two zipped streams raises its
pairing assertion exactly when some pair *within the overlap of the two
streams* has mismatching first space-delimited identifier tokens — a
difference in record counts alone raises nothing, the excess records of the
longer stream being silently dropped by `zip` — and when the assertion
fires, the pipeline fails before producing any output records. -/
theorem C8_pairing_error_iff_token_mismatch (s1 s2 : List Fastq) (idxBase : ℕ)
    (cutoff : ℤ) (retainN : Bool) :
    (Except.isOk (accumulatePairs s1 s2 idxBase cutoff retainN) = false ↔
      ∃ pr ∈ s1.zip s2, firstToken pr.1.rid ≠ firstToken pr.2.rid) ∧
    (∀ (minReadCount : ℕ) (voteCutOff : ℚ),
      Except.isOk (accumulatePairs s1 s2 idxBase cutoff retainN) = false →
      Except.isOk (pipelinePairs s1 s2 idxBase cutoff minReadCount retainN voteCutOff)
        = false) := by
  constructor
  · exact foldlM_clusterStep_error_iff idxBase cutoff retainN (s1.zip s2) []
  · intro m v h
    cases hc : accumulatePairs s1 s2 idxBase cutoff retainN with
    | ok d => rw [hc] at h; simp [Except.isOk, Except.toBool] at h
    | error e =>
        have hp : pipelinePairs s1 s2 idxBase cutoff m retainN v = .error e := by
          simp only [pipelinePairs]
          rw [hc]
          rfl
        rw [hp]
        rfl

/-- Witness for C8 at a concrete mismatching pair (ids `a` vs `b` at
position 0): accumulation fails and the pipeline yields no output. -/
theorem C8_pairing_error_iff_token_mismatch_witness :
    Except.isOk (accumulatePairs [⟨"a".toList, "NNNN".toList, "IIII".toList⟩]
      [⟨"b".toList, "NNNN".toList, "IIII".toList⟩] 2 30 false) = false ∧
    Except.isOk (pipelinePairs [⟨"a".toList, "NNNN".toList, "IIII".toList⟩]
      [⟨"b".toList, "NNNN".toList, "IIII".toList⟩] 2 30 4 false (9/10)) = false :=
  ⟨rfl, (C8_pairing_error_iff_token_mismatch
    [⟨"a".toList, "NNNN".toList, "IIII".toList⟩]
    [⟨"b".toList, "NNNN".toList, "IIII".toList⟩] 2 30 false).2 4 (9/10) rfl⟩

/-- C8 counterexample: two streams of different record counts (1 vs 2) with
matching identifiers on the overlap accumulate without any `PairingError`:
the claim's "record counts differ" trigger does not exist in the code. -/
theorem C8_count_mismatch_not_detected :
    ([(⟨"a1".toList, "NNNN".toList, "IIII".toList⟩ : Fastq)].length ≠
      [(⟨"a1".toList, "NNNN".toList, "IIII".toList⟩ : Fastq),
       ⟨"a2".toList, "NNNN".toList, "IIII".toList⟩].length) ∧
    accumulatePairs [⟨"a1".toList, "NNNN".toList, "IIII".toList⟩]
      [⟨"a1".toList, "NNNN".toList, "IIII".toList⟩,
       ⟨"a2".toList, "NNNN".toList, "IIII".toList⟩] 2 30 false = .ok [] :=
  ⟨by decide, rfl⟩

theorem homopolymer_pats_iff (n : ℕ) (pats : List DNA)
    (hpats : pats = (['A', 'C', 'T', 'G'] : List Char).map (List.replicate n))
    (s : DNA) :
    pats.any (fun p => decide (p <:+: s)) = true ↔
      ∃ c ∈ (['A', 'C', 'T', 'G'] : List Char),
        ∃ m, n ≤ m ∧ List.replicate m c <:+: s := by
  constructor
  · intro h
    rw [List.any_eq_true] at h
    obtain ⟨p, hp, hinf⟩ := h
    rw [hpats, List.mem_map] at hp
    obtain ⟨c, hc, rfl⟩ := hp
    exact ⟨c, hc, n, le_refl n, of_decide_eq_true hinf⟩
  · rintro ⟨c, hc, m, hm, hinf⟩
    rw [List.any_eq_true]
    refine ⟨List.replicate n c, ?_, ?_⟩
    · rw [hpats]; exact List.mem_map_of_mem _ hc
    · apply decide_eq_true
      have hpre : List.replicate n c <+: List.replicate m c := by
        rw [show m = n + (m - n) from (Nat.add_sub_cancel' hm).symm, List.replicate_add]
        exact List.prefix_append _ _
      exact hpre.isInfix.trans hinf

/-- C4 (amended): the homopolymer filters reject exactly on a maximal-run
threshold, but the threshold differs by variant: the double-index and
out-of-core gates (5-mer patterns) reject exactly the barcodes containing a
homopolymer run of length 5 or more, while the single-index in-memory gate
(4-mer patterns) rejects exactly those containing a run of length 4 or
more; the barcode `AAAAACGTACGTA` is rejected by both in-memory gates
regardless of the quality strings and of the hamming function. -/
theorem C4_homopolymer_thresholds :
    (∀ s : DNA, hasHomopolymer5 s = true ↔
      ∃ c ∈ (['A', 'C', 'T', 'G'] : List Char),
        ∃ m, 5 ≤ m ∧ List.replicate m c <:+: s) ∧
    (∀ s : DNA, hasHomopolymer4 s = true ↔
      ∃ c ∈ (['A', 'C', 'T', 'G'] : List Char),
        ∃ m, 4 ≤ m ∧ List.replicate m c <:+: s) ∧
    (∀ (rid rest qual r2seq r2qual : DNA) (cutoff : ℤ) (retainN : Bool),
      readClusteringPairs ⟨rid, "AAAAACGTACGTA".toList ++ rest, qual⟩
        ⟨rid, r2seq, r2qual⟩ 13 cutoff retainN = .ok none) ∧
    (∀ (ham : DNA → DNA → ℚ) (rid rest qual r2seq r2qual : DNA) (cutoff : ℤ)
        (constantLeft constantRight : DNA) (hamLeftThr hamRightThr : ℚ)
        (usableLeft usableRight : ℕ),
      readClusteringDouble ham ⟨rid, "AAAAACGTACGTA".toList ++ rest, qual⟩
        ⟨rid, r2seq, r2qual⟩ 13 cutoff constantLeft constantRight
        hamLeftThr hamRightThr usableLeft usableRight = .ok none) := by
  refine ⟨?_, ?_, ?_, ?_⟩
  · exact homopolymer_pats_iff 5 homopolymerPats5 (by decide)
  · exact homopolymer_pats_iff 4 homopolymerPats4 (by decide)
  · intro rid rest qual r2seq r2qual cutoff retainN
    have hbar : ("AAAAACGTACGTA".toList ++ rest).take 13 = "AAAAACGTACGTA".toList := by
      rw [show (13 : ℕ) = ("AAAAACGTACGTA".toList).length from by decide]
      exact List.take_left _ _
    simp only [readClusteringPairs, hbar]
    rw [if_pos trivial, if_neg]
    rintro ⟨-, hno4, -⟩
    exact hno4 (by decide)
  · intro ham rid rest qual r2seq r2qual cutoff cl cr hl hr uL uR
    have hbar : ("AAAAACGTACGTA".toList ++ rest).take 13 = "AAAAACGTACGTA".toList := by
      rw [show (13 : ℕ) = ("AAAAACGTACGTA".toList).length from by decide]
      exact List.take_left _ _
    have h5 : hasHomopolymer5 ("AAAAACGTACGTA".toList ++ '/' :: r2seq.take 13) = true := by
      rw [hasHomopolymer5, List.any_eq_true]
      refine ⟨"AAAAA".toList, by decide, decide_eq_true ?_⟩
      exact List.IsInfix.trans (by decide)
        (List.prefix_append "AAAAACGTACGTA".toList ('/' :: r2seq.take 13)).isInfix
    simp only [readClusteringDouble, hbar]
    rw [if_pos trivial, if_neg]
    rintro ⟨-, -, hno5, -⟩
    exact hno5 h5

/-- Witness for C4 at concrete barcodes: a 6-long G run is caught by the
5-mer filter, and the scenario barcode is rejected by the single-index gate
at a concrete quality. -/
theorem C4_homopolymer_thresholds_witness :
    hasHomopolymer5 "GGGGGGAC".toList = true ∧
    readClusteringPairs ⟨"r1".toList, "AAAAACGTACGTA".toList ++ "GT".toList,
        "IIIIIIIIIIIIIII".toList⟩ ⟨"r1".toList, "ACGT".toList, "IIII".toList⟩
      13 30 true = .ok none :=
  ⟨((C4_homopolymer_thresholds).1 "GGGGGGAC".toList).2
      ⟨'G', by decide, 6, by decide, by decide⟩,
    (C4_homopolymer_thresholds).2.2.1 "r1".toList "GT".toList
      "IIIIIIIIIIIIIII".toList "ACGT".toList "IIII".toList 30 true⟩

/-- C4 counterexample: the single-index in-memory gate rejects the barcode
`AAAACGTACGTAC`, whose longest homopolymer run has length 4 (it contains no
5-run), with every other filter passing — contradicting the claim that a
longest-run-4 barcode is never rejected on homopolymer grounds. -/
theorem C4_four_run_rejected :
    hasHomopolymer4 "AAAACGTACGTAC".toList = true ∧
    (¬ ∃ c ∈ (['A', 'C', 'T', 'G'] : List Char),
        List.replicate 5 c <:+: "AAAACGTACGTAC".toList) ∧
    readClusteringPairs ⟨"r1".toList, "AAAACGTACGTACGG".toList, "IIIIIIIIIIIIIII".toList⟩
      ⟨"r1".toList, "ACGT".toList, "IIII".toList⟩ 13 30 true = .ok none :=
  ⟨by decide, by decide, rfl⟩

/-- C1 (amended): on a nonempty column the plurality model calls the
max-count base (the lexicographically first among ties, with maximal count
among all bases) exactly when its fraction of the members strictly exceeds
the vote threshold, with quality the mean of the qualities of the members
agreeing with it; otherwise it calls the sentinel `'N'` with quality the
mean of the qualities of the members whose base *is* `'N'` when any member
shows `'N'`, and the format's minimum quality 33 only when no member does;
when all members agree on `c` (and the threshold is below 1) it calls `c`
with quality the mean of all contributing qualities. -/
theorem C1_plurality_vote_call (seqList qualList : List DNA) (pos : ℕ)
    (voteCutOff : ℚ) (hne : columnAt seqList qualList pos ≠ []) :
    (((maxCount ((columnAt seqList qualList pos).map Prod.fst) : ℚ) /
        (((columnAt seqList qualList pos).map Prod.fst).length : ℚ) > voteCutOff →
      calculateConcensusBase seqList qualList pos voteCutOff =
        (npMode ((columnAt seqList qualList pos).map Prod.fst),
         meanQ (agreeQuals (columnAt seqList qualList pos)
           (npMode ((columnAt seqList qualList pos).map Prod.fst)))) ∧
      ∀ c : Char, ((columnAt seqList qualList pos).map Prod.fst).count c ≤
        ((columnAt seqList qualList pos).map Prod.fst).count
          (npMode ((columnAt seqList qualList pos).map Prod.fst)))) ∧
    (¬ ((maxCount ((columnAt seqList qualList pos).map Prod.fst) : ℚ) /
        (((columnAt seqList qualList pos).map Prod.fst).length : ℚ) > voteCutOff) →
      calculateConcensusBase seqList qualList pos voteCutOff =
        ('N', if 'N' ∈ (columnAt seqList qualList pos).map Prod.fst
              then meanQ (agreeQuals (columnAt seqList qualList pos) 'N')
              else 33)) ∧
    (∀ c : Char, voteCutOff < 1 →
      (∀ p ∈ columnAt seqList qualList pos, p.1 = c) →
      calculateConcensusBase seqList qualList pos voteCutOff =
        (c, meanQ ((columnAt seqList qualList pos).map Prod.snd))) := by
  have hbne : (columnAt seqList qualList pos).map Prod.fst ≠ [] := by
    simpa [List.map_eq_nil_iff] using hne
  refine ⟨fun h => ⟨calculateConcensusBase_above seqList qualList pos voteCutOff hne h, ?_⟩,
    fun h => calculateConcensusBase_below seqList qualList pos voteCutOff h,
    fun c h1 h2 =>
      calculateConcensusBase_all_agree seqList qualList pos voteCutOff c hne h2 h1⟩
  intro c
  rw [(npMode_spec hbne).2]
  exact count_le_maxCount _ c

/-- Witness for C1 at a concrete fully-agreeing column of two members with
quality char `'('` (ord 40): the call is `('A', 40)`. -/
theorem C1_plurality_vote_call_witness :
    columnAt [['A'], ['A']] [['('], ['(']] 0 ≠ [] ∧
    calculateConcensusBase [['A'], ['A']] [['('], ['(']] 0 (9/10) = ('A', 40) := by
  refine ⟨by decide, ?_⟩
  have h := (C1_plurality_vote_call [['A'], ['A']] [['('], ['(']] 0 (9/10)
    (by decide)).2.2 'A' (by norm_num) (by decide)
  rw [h, show (columnAt [['A'], ['A']] [['('], ['(']] 0).map Prod.snd = [40, 40] from by decide]
  norm_num [meanQ]

/-- C1 counterexample: a column `N, N, A` with qualities 40, 50, 60 at vote
threshold 0.9 calls the sentinel `'N'`, but its reported quality is 45 — the
mean of the two members reading `'N'` — not the format's minimum 33 the
claim prescribes for a sentinel call. -/
theorem C1_sentinel_quality_not_minimum :
    calculateConcensusBase [['N'], ['N'], ['A']] [['('], ['2'], ['<']] 0 (9/10)
      = ('N', 45) ∧ ((45 : ℚ) ≠ 33) := by
  have hcol : columnAt [['N'], ['N'], ['A']] [['('], ['2'], ['<']] 0
      = [('N', 40), ('N', 50), ('A', 60)] := by decide
  have hb : ¬ ((maxCount ((columnAt [['N'], ['N'], ['A']] [['('], ['2'], ['<']] 0).map
      Prod.fst) : ℚ) /
      (((columnAt [['N'], ['N'], ['A']] [['('], ['2'], ['<']] 0).map Prod.fst).length : ℚ)
      > 9/10) := by
    rw [hcol]
    rw [show ([(('N' : Char), (40 : ℕ)), ('N', 50), ('A', 60)].map Prod.fst)
      = ['N', 'N', 'A'] from by decide]
    rw [show maxCount ['N', 'N', 'A'] = 2 from by decide]
    rw [show (['N', 'N', 'A'] : List Char).length = 3 from by decide]
    norm_num
  rw [calculateConcensusBase_below _ _ _ _ hb, hcol]
  refine ⟨?_, by norm_num⟩
  rw [if_pos (by decide)]
  rw [show agreeQuals [(('N' : Char), (40 : ℕ)), ('N', 50), ('A', 60)] 'N'
    = [40, 50] from by decide]
  norm_num [meanQ]

theorem calculatePosterior_eq_amended (guessBase : Char) (col : List (Char × ℕ)) :
    calculatePosterior guessBase col = amendedLikelihood guessBase col := by
  simp only [calculatePosterior, amendedLikelihood]
  by_cases hm : col.filter (fun p => p.1 ≠ guessBase) = []
  · rw [if_pos hm, hm]
    simp
  · rw [if_neg hm]
    have hml : 0 < ((col.filter (fun p => p.1 ≠ guessBase)).map Prod.snd).length := by
      rw [List.length_map]; exact List.length_pos.2 hm
    by_cases hh : col.filter (fun p => p.1 = guessBase) = []
    · rw [if_pos hh, hh, if_pos hml]
      simp
    · have hhl : 0 < ((col.filter (fun p => p.1 = guessBase)).map Prod.snd).length := by
        rw [List.length_map]; exact List.length_pos.2 hh
      rw [if_neg hh, if_pos hml, if_pos hhl, specLikelihood]
      rw [List.map_map, List.map_map, mul_comm]
      rfl

theorem calculateConcensusBaseHdf_eq_spec (seqList qualList : List DNA) (pos : ℕ) :
    calculateConcensusBaseHdf seqList qualList pos = bayesCallSpec seqList qualList pos := by
  simp only [calculateConcensusBaseHdf, bayesCallSpec]
  rw [show acceptableBases.map
      (fun g => calculatePosterior g (columnAtHdf seqList qualList pos))
    = acceptableBases.map
      (fun g => amendedLikelihood g (columnAtHdf seqList qualList pos)) from
    List.map_congr_left (fun g _ => calculatePosterior_eq_amended g _)]

theorem concensusSeqHdf_bounds (seqList qualList : List DNA) (positions : List ℕ) :
    (concensusSeqHdf seqList qualList positions).1.length = positions.length ∧
    (concensusSeqHdf seqList qualList positions).2.length = positions.length ∧
    ∀ x ∈ (concensusSeqHdf seqList qualList positions).2,
      minQhdf ≤ x ∧ x ≤ maxQhdf := by
  refine ⟨by simp [concensusSeqHdf], by simp [concensusSeqHdf], ?_⟩
  intro x hx
  simp only [concensusSeqHdf, List.map_map, List.mem_map] at hx
  obtain ⟨p, hp, rfl⟩ := hx
  constructor <;> (simp only [Function.comp, clampQ, minQhdf, maxQhdf]; split_ifs <;> omega)

/-- C2 (amended): the Bayesian model computes, for each canonical base, the
likelihood given by the claim's product formula whenever at least one member
matches and at least one mismatches, but the likelihood is exactly 1 when no
member mismatches and exactly 0 when no member matches (and some mismatch);
those likelihoods are normalized by their sum, the first maximal posterior's
base is called, its quality is `-10*log10(1-posterior) + 33` (`maxQ` at
posterior 1), and the emitted qualities are truncated to integers and
clamped into `[minQ, maxQ] = [33, 73]`. -/
theorem C2_bayesian_posterior_model :
    (∀ (guessBase : Char) (col : List (Char × ℕ)),
      calculatePosterior guessBase col = amendedLikelihood guessBase col) ∧
    (∀ (seqList qualList : List DNA) (pos : ℕ),
      calculateConcensusBaseHdf seqList qualList pos = bayesCallSpec seqList qualList pos) ∧
    (∀ (seqList qualList : List DNA) (positions : List ℕ),
      (concensusSeqHdf seqList qualList positions).2.length = positions.length ∧
      ∀ x ∈ (concensusSeqHdf seqList qualList positions).2,
        minQhdf ≤ x ∧ x ≤ maxQhdf) :=
  ⟨calculatePosterior_eq_amended,
   calculateConcensusBaseHdf_eq_spec,
   fun s q ps => ⟨(concensusSeqHdf_bounds s q ps).2.1, (concensusSeqHdf_bounds s q ps).2.2⟩⟩

/-- Witness for C2 at a concrete one-member column: the likelihood equality
holds and the single emitted quality obeys the `[33, 73]` clamp. -/
theorem C2_bayesian_posterior_model_witness :
    calculatePosterior 'C' [('A', (10 : ℕ))] = amendedLikelihood 'C' [('A', 10)] ∧
    (minQhdf ≤ clampQ (pyTruncR (calculateConcensusBaseHdf [['A']] [['I']] 0).2) ∧
      clampQ (pyTruncR (calculateConcensusBaseHdf [['A']] [['I']] 0).2) ≤ maxQhdf) := by
  refine ⟨C2_bayesian_posterior_model.1 'C' [('A', 10)], ?_⟩
  have h3 := (C2_bayesian_posterior_model.2.2 [['A']] [['I']] [0]).2
  exact h3 _ (by
    rw [show (concensusSeqHdf [['A']] [['I']] [0]).2
      = [clampQ (pyTruncR (calculateConcensusBaseHdf [['A']] [['I']] 0).2)] from rfl]
    exact List.mem_singleton_self _)

/-- C2 counterexample: on the column `A, A` with qualities 10, the claim's
product formula for guess base `C` gives `(10^(-1)/3)^2 > 0` (the empty
product over matching members being 1), but the code's `calculatePosterior`
returns 0 because it replaces the empty hit product by 0. -/
theorem C2_likelihood_zero_hit_product :
    calculatePosterior 'C' [('A', (10 : ℕ)), ('A', 10)] = 0 ∧
    specLikelihood 'C' [('A', (10 : ℕ)), ('A', 10)] ≠ 0 := by
  have h1 : ([(('A' : Char), (10 : ℕ)), ('A', 10)].filter (fun p => p.1 = 'C')) = [] := by
    decide
  have h2 : ([(('A' : Char), (10 : ℕ)), ('A', 10)].filter (fun p => p.1 ≠ 'C'))
      = [('A', 10), ('A', 10)] := by decide
  constructor
  · simp only [calculatePosterior, h1, h2]
    simp
  · simp only [specLikelihood, h1, h2]
    simp only [List.map_nil, List.prod_nil, one_mul, List.map_cons, List.prod_cons]
    simp only [qual2Prob]
    positivity
